import Mathlib

/-!
Shallow embedding of the Weather Now application core (src/src/App.tsx):
pure converters (`cToF`, `degToCompass`, weather-code labels), the derived
views `current` and `next12Hours`, the weather-fetch handler `handlePick`,
and an event-driven model of the debounced place-lookup controller.
Numbers are modelled as `Rat` (JS numbers on the values the app handles),
JS `Math.round` as floor of x + 1/2, and the JS `%` operator on integers
as `Int.tmod` (remainder with the sign of the dividend).
-/

namespace WeatherNow

/-- JS `Math.round`: round half toward positive infinity. -/
def jsRound (x : Rat) : Int := Int.floor (x + 1/2)

/-- JS string truthiness fallback `s || d`. -/
def jsOrString (s d : String) : String := if s = "" then d else s

/-- `cToF` from App.tsx: `(c * 9) / 5 + 32`. -/
def cToF (c : Rat) : Rat := (c * 9) / 5 + 32

/-- The 16-entry compass label table `dirs` in `degToCompass`. -/
def dirs : List String :=
  ["N", "NNE", "NE", "ENE", "E", "ESE", "SE", "SSE",
   "S", "SSW", "SW", "WSW", "W", "WNW", "NW", "NNW"]

/-- `degToCompass` from App.tsx: `dirs[Math.round(deg / 22.5) % 16]`.
JS `%` is the truncated remainder (`Int.tmod`); a negative index or an
index past the end of the array yields `undefined`, modelled as `none`. -/
def degToCompass (deg : Rat) : Option String :=
  let i : Int := (jsRound (deg / (22.5 : Rat))).tmod 16
  if 0 ≤ i then dirs.get? i.toNat else none

/-- The fixed `WEATHER_CODE` table of App.tsx, as (code, label) pairs. -/
def WEATHER_CODE : List (Int × String) :=
  [(0, "Clear sky"), (1, "Mainly clear"), (2, "Partly cloudy"), (3, "Overcast"),
   (45, "Fog"), (48, "Depositing rime fog"),
   (51, "Light drizzle"), (53, "Moderate drizzle"), (55, "Dense drizzle"),
   (56, "Light freezing drizzle"), (57, "Dense freezing drizzle"),
   (61, "Slight rain"), (63, "Moderate rain"), (65, "Heavy rain"),
   (66, "Light freezing rain"), (67, "Heavy freezing rain"),
   (71, "Slight snow fall"), (73, "Moderate snow fall"), (75, "Heavy snow fall"),
   (77, "Snow grains"),
   (80, "Slight rain showers"), (81, "Moderate rain showers"),
   (82, "Violent rain showers"),
   (85, "Slight snow showers"), (86, "Heavy snow showers"),
   (95, "Thunderstorm"), (96, "Thunderstorm with slight hail"),
   (99, "Thunderstorm with heavy hail")]

/-- `WEATHER_CODE[c.weather_code] || "—"`: table lookup with the JS
falsy-fallback to the placeholder label. An absent key gives `undefined`,
hence the placeholder. -/
def codeLabel (code : Int) : String :=
  match WEATHER_CODE.lookup code with
  | some s => jsOrString s "—"
  | none => "—"

/-- The `unit` state of App.tsx, a two-valued string `"C" | "F"`. -/
inductive TUnit where
  | C
  | F
deriving DecidableEq, Repr

/-- `Place` interface of App.tsx. Coordinates are JS numbers, modelled
as rationals. -/
structure Place where
  id : Int
  name : String
  admin1 : Option String := none
  country : Option String := none
  latitude : Rat
  longitude : Rat
deriving DecidableEq, Repr

/-- `CurrentWeather` interface of App.tsx. -/
structure CurrentWeather where
  temperature_2m : Rat
  apparent_temperature : Rat
  is_day : Int
  weather_code : Int
  wind_speed_10m : Rat
  wind_direction_10m : Rat
  relative_humidity_2m : Rat
deriving DecidableEq, Repr

/-- `HourlyWeather` interface of App.tsx. Timestamps are ISO strings in
the source, consumed only through `new Date(s).getTime()`; the embedding
identifies each timestamp with its parsed instant, a natural number.
`precipitation_probability` is an optional field. -/
structure HourlyWeather where
  time : List Nat
  temperature_2m : List Rat
  precipitation_probability : Option (List Rat) := none
deriving DecidableEq, Repr

/-- `WeatherData` interface of App.tsx. -/
structure WeatherData where
  current : CurrentWeather
  hourly : HourlyWeather
deriving DecidableEq, Repr

/-- The object produced by the `current` useMemo of App.tsx. -/
structure CurrentView where
  temp : Rat
  feels : Rat
  isDay : Bool
  wcode : Int
  wind : Rat
  windDir : Rat
  humidity : Rat
  label : String
  unitSymbol : String
deriving DecidableEq, Repr

/-- The entries produced by the `next12Hours` useMemo of App.tsx. -/
structure HourView where
  time : Nat
  temp : Rat
  pop : Rat
deriving DecidableEq, Repr

/-- `unit === "C" ? tempC : cToF(tempC)`. -/
def convTemp (u : TUnit) (c : Rat) : Rat :=
  match u with
  | .C => c
  | .F => cToF c

/-- The `current` useMemo of App.tsx: `null` without a snapshot, otherwise
the derived current-conditions view for the active unit. -/
def current (weather : Option WeatherData) (u : TUnit) : Option CurrentView :=
  match weather with
  | none => none
  | some w =>
    let c := w.current
    some
      { temp := convTemp u c.temperature_2m
        feels := convTemp u c.apparent_temperature
        isDay := c.is_day != 0
        wcode := c.weather_code
        wind := c.wind_speed_10m
        windDir := c.wind_direction_10m
        humidity := c.relative_humidity_2m
        label := codeLabel c.weather_code
        unitSymbol := if u = .C then "°C" else "°F" }

/-- `precipitation_probability?.[i] ?? 0`: an absent array, or an index
past its end, defaults to 0. -/
def popAt (pops : Option (List Rat)) (i : Nat) : Rat :=
  match pops with
  | none => 0
  | some l => l.getD i 0

/-- The loop body of the `next12Hours` useMemo: walk the timestamp list
from index `i` with accumulator `items`, pushing a view for each entry
with `t >= now` while fewer than 12 items have been collected. -/
def next12Go (h : HourlyWeather) (u : TUnit) (now : Nat) :
    List Nat → Nat → List HourView → List HourView
  | [], _, items => items
  | t :: rest, i, items =>
    if items.length < 12 then
      if now ≤ t then
        next12Go h u now rest (i + 1)
          (items ++ [{ time := t
                       temp := convTemp u (h.temperature_2m.getD i 0)
                       pop := popAt h.precipitation_probability i }])
      else next12Go h u now rest (i + 1) items
    else items

/-- The `next12Hours` useMemo of App.tsx: `[]` without a snapshot,
otherwise the first 12 hourly entries not earlier than `now`. -/
def next12Hours (weather : Option WeatherData) (u : TUnit) (now : Nat) :
    List HourView :=
  match weather with
  | none => []
  | some w => next12Go w.hourly u now w.hourly.time 0 []

/-- Specification-level reading of `deriveUpcomingHours`: the subsequence
of hourly entries whose timestamp is at least `nowInstant`, in original
order, truncated to the first 12, each converted per the active unit with
precipitation probability defaulting to 0. -/
def upcomingSpec (h : HourlyWeather) (u : TUnit) (now : Nat) : List HourView :=
  (((h.time.enum.filter fun p => now ≤ p.2).take 12).map
    fun p => { time := p.2
               temp := convTemp u (h.temperature_2m.getD p.1 0)
               pop := popAt h.precipitation_probability p.1 })

/-- The query string of a geocoding lookup request issued by App.tsx:
`?name=…&count=5&language=en&format=json`. -/
structure LookupRequest where
  name : String
  count : Nat
  language : String
  format : String
deriving DecidableEq, Repr

/-- The request the debounce timer issues for query `q`. -/
def mkLookupRequest (q : String) : LookupRequest :=
  { name := q, count := 5, language := "en", format := "json" }

/-- An in-flight (started, not yet completed or aborted) lookup request,
tagged with the identity of its `AbortController`. -/
structure LiveReq where
  rid : Nat
  req : LookupRequest
deriving DecidableEq, Repr

/-- The state held by the App component: the `useState` slots, the
`abortRef`, plus bookkeeping for the asynchronous lookup machinery (the
pending debounce timer with its captured query, the set of in-flight
lookups, the history of issued requests, the log of reported failures,
and a fresh-id counter). -/
structure AppState where
  query : String
  suggestions : List Place
  selectedPlace : Option Place
  weather : Option WeatherData
  unit : TUnit
  loading : Bool
  error : String
  timer : Option String
  abortRef : Option Nat
  live : List LiveReq
  issued : List LookupRequest
  logged : List Nat
  nextId : Nat
deriving Repr

/-- Initial component state. -/
def initState : AppState :=
  { query := "", suggestions := [], selectedPlace := none, weather := none
    unit := .C, loading := false, error := "", timer := none
    abortRef := none, live := [], issued := [], logged := [], nextId := 0 }

/-- How a lookup request completes: a parsed success body (with its
optional `results` list), an abort, or any other failure. -/
inductive LookupOutcome where
  | success (results : Option (List Place))
  | aborted
  | failure
deriving DecidableEq, Repr

/-- Events of the place-search controller: a keystroke changing the
query, the 300ms debounce timer firing, and a lookup request settling. -/
inductive SEvent where
  | queryChange (q : String)
  | timerFire
  | settle (rid : Nat) (outcome : LookupOutcome)
deriving DecidableEq, Repr

/-- One event-loop step of the search controller, from the `useEffect` of
App.tsx. A query change always clears the pending timer (the effect
cleanup runs `clearTimeout`); an empty query clears the suggestions and
starts no timer; a non-empty query restarts the timer capturing the
query. When the timer fires, the request held by `abortRef` is aborted,
a fresh controller replaces it, and a new request for the captured query
is issued. A settling request no longer in flight reaches the handler as
an `AbortError`, which does nothing; a success replaces the suggestions
wholesale with `data?.results || []`; any other failure is only logged. -/
def step (st : AppState) (e : SEvent) : AppState :=
  match e with
  | .queryChange q =>
    if q = "" then
      { st with query := q, suggestions := [], timer := none }
    else
      { st with query := q, timer := some q }
  | .timerFire =>
    match st.timer with
    | none => st
    | some q =>
      let req := mkLookupRequest q
      { st with timer := none
                abortRef := some st.nextId
                live := (st.live.filter fun r => some r.rid ≠ st.abortRef)
                          ++ [{ rid := st.nextId, req := req }]
                issued := st.issued ++ [req]
                nextId := st.nextId + 1 }
  | .settle rid outcome =>
    match outcome with
    | .aborted => st
    | .success results =>
      { st with live := st.live.filter fun r => r.rid ≠ rid
                suggestions := results.getD [] }
    | .failure =>
      { st with live := st.live.filter fun r => r.rid ≠ rid
                logged := st.logged ++ [rid] }

/-- Run a sequence of events from a state. -/
def runFrom (st : AppState) (es : List SEvent) : AppState :=
  es.foldl step st

/-- A failure caught by `handlePick`: a JS `Error` with its message, or a
thrown non-`Error` value. -/
inductive FetchFailure where
  | err (message : String)
  | other
deriving DecidableEq, Repr

/-- The message `handlePick` stores on failure:
`e.message || "Something went wrong"` for an `Error`, the generic
fallback otherwise. -/
def fetchErrorMessage : FetchFailure → String
  | .err m => jsOrString m "Something went wrong"
  | .other => "Something went wrong"

/-- The synchronous prefix of `handlePick`: select the place, clear the
suggestions and any previous error, set loading, drop the previous
snapshot. -/
def handlePickStart (st : AppState) (place : Place) : AppState :=
  { st with selectedPlace := some place, suggestions := [], error := ""
            loading := true, weather := none }

/-- The completion of `handlePick`'s weather fetch: store the snapshot on
success, store the failure message on failure; the `finally` clause
clears the loading flag either way. -/
def handlePickSettle (st : AppState) (result : Except FetchFailure WeatherData) :
    AppState :=
  match result with
  | .ok wx => { st with weather := some wx, loading := false }
  | .error f => { st with error := fetchErrorMessage f, loading := false }

/-- `handlePick` of App.tsx, from click to settled fetch. -/
def handlePick (st : AppState) (place : Place)
    (result : Except FetchFailure WeatherData) : AppState :=
  handlePickSettle (handlePickStart st place) result

/-- `setUnit` from the °C/°F toggle buttons of App.tsx. -/
def setUnit (u : TUnit) (st : AppState) : AppState :=
  { st with unit := u }

/-- C2: settling an aborted lookup changes nothing at all — suggestions
and the error slot keep their values and nothing is logged — while a
non-abort failure leaves suggestions and error alone and is appended to
the log. -/
theorem aborted_settle_no_state_change :
    (∀ (st : AppState) (rid : Nat), step st (.settle rid .aborted) = st)
    ∧ (∀ (st : AppState) (rid : Nat),
        (step st (.settle rid .failure)).suggestions = st.suggestions
        ∧ (step st (.settle rid .failure)).error = st.error
        ∧ (step st (.settle rid .failure)).logged = st.logged ++ [rid]) := by
  refine ⟨fun st rid => rfl, fun st rid => ⟨rfl, rfl, rfl⟩⟩

/-- C3: a failed weather fetch sets the error to the failure's message
when it is present, and to the generic fallback when the message is empty
or the thrown value is not an `Error`; the snapshot is `null`, the
loading flag is cleared, and the error is never the empty string. A
subsequent successful fetch clears the error and stores the fresh
snapshot with loading cleared. -/
theorem handlePick_failure_contract :
    (∀ (st : AppState) (place : Place) (m : String), m ≠ "" →
        (handlePick st place (.error (.err m))).error = m)
    ∧ (∀ (st : AppState) (place : Place),
        (handlePick st place (.error (.err ""))).error = "Something went wrong"
        ∧ (handlePick st place (.error .other)).error = "Something went wrong")
    ∧ (∀ (st : AppState) (place : Place) (f : FetchFailure),
        (handlePick st place (.error f)).weather = none
        ∧ (handlePick st place (.error f)).loading = false
        ∧ (handlePick st place (.error f)).error ≠ "")
    ∧ (∀ (st : AppState) (place : Place) (f : FetchFailure)
        (place' : Place) (wx : WeatherData),
        (handlePick (handlePick st place (.error f)) place' (.ok wx)).error = ""
        ∧ (handlePick (handlePick st place (.error f)) place' (.ok wx)).weather
            = some wx
        ∧ (handlePick (handlePick st place (.error f)) place' (.ok wx)).loading
            = false) := by
  refine ⟨fun st place m hm => ?_, fun st place => ⟨rfl, rfl⟩,
          fun st place f => ⟨rfl, rfl, ?_⟩,
          fun st place f place' wx => ⟨rfl, rfl, rfl⟩⟩
  · simp [handlePick, handlePickStart, handlePickSettle, fetchErrorMessage,
      jsOrString, hm]
  · cases f with
    | err m =>
      simp only [handlePick, handlePickStart, handlePickSettle,
        fetchErrorMessage, jsOrString]
      split <;> simp_all
    | other =>
      simp [handlePick, handlePickStart, handlePickSettle, fetchErrorMessage]

/-- A concrete place used to instantiate theorems with hypotheses. -/
def placeLondon : Place :=
  { id := 1, name := "London", latitude := 51, longitude := 0 }

/-- Witness for C3 at a concrete failure with a non-empty message. -/
theorem handlePick_failure_contract_witness :
    "boom" ≠ ""
    ∧ (handlePick initState placeLondon (.error (.err "boom"))).error = "boom" :=
  ⟨by decide, handlePick_failure_contract.1 initState placeLondon "boom" (by decide)⟩

/-- C6: a keystroke that empties the query clears the suggestion list at
once, leaves no debounce timer pending, issues no lookup request, and
starts no new in-flight lookup. -/
theorem empty_query_clears_suggestions :
    ∀ st : AppState,
      (step st (.queryChange "")).suggestions = []
      ∧ (step st (.queryChange "")).timer = none
      ∧ (step st (.queryChange "")).issued = st.issued
      ∧ (step st (.queryChange "")).live = st.live
      ∧ (step st (.queryChange "")).query = "" := by
  intro st
  refine ⟨rfl, rfl, rfl, rfl, rfl⟩

/-- C7: the derived current view is `none` exactly when there is no
snapshot; with a snapshot, Celsius passes temperatures through and
Fahrenheit applies c*9/5+32, humidity, wind speed, wind direction and
the day flag are passed through, the weather code is mapped through the
fixed table, the unit symbol annotates the view, and every code missing
from the table maps to the placeholder label. -/
theorem current_view_contract :
    (∀ u, current none u = none)
    ∧ (∀ (w : WeatherData) (u : TUnit), current (some w) u ≠ none)
    ∧ (∀ w : WeatherData, current (some w) .C =
        some { temp := w.current.temperature_2m
               feels := w.current.apparent_temperature
               isDay := w.current.is_day != 0
               wcode := w.current.weather_code
               wind := w.current.wind_speed_10m
               windDir := w.current.wind_direction_10m
               humidity := w.current.relative_humidity_2m
               label := codeLabel w.current.weather_code
               unitSymbol := "°C" })
    ∧ (∀ w : WeatherData, current (some w) .F =
        some { temp := w.current.temperature_2m * 9 / 5 + 32
               feels := w.current.apparent_temperature * 9 / 5 + 32
               isDay := w.current.is_day != 0
               wcode := w.current.weather_code
               wind := w.current.wind_speed_10m
               windDir := w.current.wind_direction_10m
               humidity := w.current.relative_humidity_2m
               label := codeLabel w.current.weather_code
               unitSymbol := "°F" })
    ∧ (∀ code : Int, WEATHER_CODE.lookup code = none → codeLabel code = "—") := by
  refine ⟨fun u => rfl, fun w u => by simp [current], fun w => rfl, fun w => rfl,
    fun code h => by simp [codeLabel, h]⟩

/-- Witness for C7 at a code absent from the table. -/
theorem current_view_contract_witness :
    WEATHER_CODE.lookup 4 = none ∧ codeLabel 4 = "—" :=
  ⟨by decide, current_view_contract.2.2.2.2 4 (by decide)⟩

/-- C9: switching the unit preference rewrites only the `unit` field —
query, suggestions, selected place, raw snapshot, loading flag and error
slot are untouched — and the derived views, being functions of the
snapshot and the unit alone, see the same snapshot afterwards. -/
theorem unit_toggle_frame :
    ∀ (st : AppState) (u : TUnit),
      (setUnit u st).unit = u
      ∧ (setUnit u st).weather = st.weather
      ∧ (setUnit u st).query = st.query
      ∧ (setUnit u st).suggestions = st.suggestions
      ∧ (setUnit u st).selectedPlace = st.selectedPlace
      ∧ (setUnit u st).loading = st.loading
      ∧ (setUnit u st).error = st.error
      ∧ current (setUnit u st).weather u = current st.weather u
      ∧ ∀ now, next12Hours (setUnit u st).weather u now
          = next12Hours st.weather u now := by
  intro st u
  exact ⟨rfl, rfl, rfl, rfl, rfl, rfl, rfl, rfl, fun now => rfl⟩

/-- The loop of `next12Hours` computes the filtered, 12-capped projection
of the remaining entries, appended to the accumulator. -/
theorem next12Go_eq (h : HourlyWeather) (u : TUnit) (now : Nat) :
    ∀ (ts : List Nat) (i : Nat) (items : List HourView),
      next12Go h u now ts i items
        = items ++
            ((((List.enumFrom i ts).filter fun p => now ≤ p.2).take
                (12 - items.length)).map
              fun p => { time := p.2
                         temp := convTemp u (h.temperature_2m.getD p.1 0)
                         pop := popAt h.precipitation_probability p.1 }) := by
  intro ts
  induction ts with
  | nil => intro i items; simp [next12Go, List.enumFrom]
  | cons t rest ih =>
    intro i items
    by_cases h12 : items.length < 12
    · by_cases hle : now ≤ t
      · rw [next12Go, if_pos h12, if_pos hle, ih]
        have hsub : 12 - items.length = (12 - (items.length + 1)) + 1 := by omega
        simp only [List.enumFrom, List.filter_cons, decide_eq_true_eq, hle,
          if_pos, hsub, List.take_succ_cons, List.map_cons, List.length_append,
          List.length_cons, List.length_nil, List.append_assoc,
          List.cons_append, List.nil_append]
      · rw [next12Go, if_pos h12, if_neg hle, ih]
        simp only [List.enumFrom, List.filter_cons, decide_eq_true_eq, hle,
          if_false, ite_false]
    · rw [next12Go, if_neg h12]
      have hsub : 12 - items.length = 0 := by omega
      simp [hsub]

/-- A concrete snapshot for the worked example of C4: hourly instants
600 and 660 (minutes, standing for 2024-01-01T10:00 and T11:00). -/
def exampleSnapshot : WeatherData :=
  { current := { temperature_2m := 5, apparent_temperature := 4, is_day := 1
                 weather_code := 0, wind_speed_10m := 10
                 wind_direction_10m := 90, relative_humidity_2m := 50 }
    hourly := { time := [600, 660], temperature_2m := [5, 7]
                precipitation_probability := none } }

/-- C4: with a snapshot, `next12Hours` is exactly the chronological
subsequence of hourly entries not earlier than `now`, truncated to the
first 12, temperatures converted per the unit (Fahrenheit c*9/5+32,
Celsius unchanged) and precipitation probability defaulting to 0; without
one it is empty; and on instants 600/660 (10:00 and 11:00) with `now`
630 (10:30) exactly the 11:00 entry is returned. -/
theorem next12Hours_spec_and_example :
    (∀ (w : WeatherData) (u : TUnit) (now : Nat),
        next12Hours (some w) u now = upcomingSpec w.hourly u now)
    ∧ (∀ (u : TUnit) (now : Nat), next12Hours none u now = [])
    ∧ (∀ c : Rat, convTemp .F c = c * 9 / 5 + 32 ∧ convTemp .C c = c)
    ∧ next12Hours (some exampleSnapshot) .C 630
        = [{ time := 660, temp := 7, pop := 0 }] := by
  refine ⟨fun w u now => ?_, fun u now => rfl, fun c => ⟨rfl, rfl⟩, by decide⟩
  rw [next12Hours, next12Go_eq]
  simp [upcomingSpec, List.enum]

/-- The single abort handle `abortRef` owns the in-flight set: there is
no in-flight lookup, or exactly one and `abortRef` holds its controller. -/
def liveAbortInv (st : AppState) : Prop :=
  st.live = [] ∨ ∃ r, st.live = [r] ∧ st.abortRef = some r.rid

theorem liveAbortInv_step (st : AppState) (e : SEvent)
    (h : liveAbortInv st) : liveAbortInv (step st e) := by
  cases e with
  | queryChange q =>
    rcases h with h0 | ⟨r, hr, ha⟩
    · left
      simp [step]
      split <;> simp [h0]
    · right
      refine ⟨r, ?_, ?_⟩ <;> simp [step] <;> split <;> simp [hr, ha]
  | timerFire =>
    rcases hst : st.timer with _ | q
    · simpa [step, hst] using h
    · rcases h with h0 | ⟨r, hr, ha⟩
      · right
        exact ⟨{ rid := st.nextId, req := mkLookupRequest q },
          by simp [step, hst, h0], by simp [step, hst]⟩
      · right
        refine ⟨{ rid := st.nextId, req := mkLookupRequest q }, ?_, by simp [step, hst]⟩
        simp [step, hst, hr, ha]
  | settle rid outcome =>
    cases outcome with
    | aborted => simpa [step] using h
    | success results =>
      rcases h with h0 | ⟨r, hr, ha⟩
      · left; simp [step, h0]
      · by_cases hrid : r.rid = rid
        · left; simp [step, hr, hrid]
        · right; exact ⟨r, by simp [step, hr, hrid], by simp [step, ha]⟩
    | failure =>
      rcases h with h0 | ⟨r, hr, ha⟩
      · left; simp [step, h0]
      · by_cases hrid : r.rid = rid
        · left; simp [step, hr, hrid]
        · right; exact ⟨r, by simp [step, hr, hrid], by simp [step, ha]⟩

theorem liveAbortInv_runFrom :
    ∀ (es : List SEvent) (st : AppState),
      liveAbortInv st → liveAbortInv (runFrom st es) := by
  intro es
  induction es with
  | nil => intro st h; exact h
  | cons e es ih =>
    intro st h
    exact ih (step st e) (liveAbortInv_step st e h)

theorem liveAbortInv_length {st : AppState} (h : liveAbortInv st) :
    st.live.length ≤ 1 := by
  rcases h with h0 | ⟨r, hr, _⟩
  · simp [h0]
  · simp [hr]

/-- A keystroke never touches the issued-request history. -/
theorem step_queryChange_issued (st : AppState) (q : String) :
    (step st (.queryChange q)).issued = st.issued := by
  simp [step]
  split <;> rfl

theorem runFrom_burst_issued :
    ∀ (qs : List String) (st : AppState) (q : String), q ≠ "" →
      (runFrom st ((qs ++ [q]).map SEvent.queryChange
          ++ [SEvent.timerFire])).issued
        = st.issued ++ [mkLookupRequest q] := by
  intro qs
  induction qs with
  | nil =>
    intro st q hq
    simp [runFrom, step, hq]
  | cons x qs ih =>
    intro st q hq
    have : runFrom st (((x :: qs) ++ [q]).map SEvent.queryChange
        ++ [SEvent.timerFire])
        = runFrom (step st (.queryChange x))
            ((qs ++ [q]).map SEvent.queryChange ++ [SEvent.timerFire]) := rfl
    rw [this, ih _ q hq, step_queryChange_issued]

/-- C1: a burst of query keystrokes (each arriving before the previous
300ms timer fires, so no `timerFire` lies between them) followed by the
single surviving timer firing issues exactly one lookup request, and it
carries the last query of the burst; and along every event sequence from
the initial state at most one lookup is in flight at any time, since the
timer's handler aborts the previous request before starting the new one. -/
theorem debounce_latest_wins :
    (∀ (st : AppState) (qs : List String) (q : String),
        (∀ x ∈ qs, x ≠ "") → q ≠ "" →
        (runFrom st ((qs ++ [q]).map SEvent.queryChange
            ++ [SEvent.timerFire])).issued
          = st.issued ++ [mkLookupRequest q])
    ∧ ∀ es : List SEvent, (runFrom initState es).live.length ≤ 1 := by
  refine ⟨fun st qs q _ hq => runFrom_burst_issued qs st q hq, fun es => ?_⟩
  exact liveAbortInv_length (liveAbortInv_runFrom es initState (Or.inl rfl))

/-- Witness for C1: typing "Lon" then "London" within the debounce window
issues one request, carrying "London". -/
theorem debounce_latest_wins_witness :
    (∀ x ∈ ["Lon"], x ≠ "") ∧ "London" ≠ ""
    ∧ (runFrom initState ((["Lon"] ++ ["London"]).map SEvent.queryChange
        ++ [SEvent.timerFire])).issued
      = initState.issued ++ [mkLookupRequest "London"] :=
  ⟨by decide, by decide,
    debounce_latest_wins.1 initState ["Lon"] "London" (by decide) (by decide)⟩

/-- Six distinct places, one more than the requested result cap. -/
def sixPlaces : List Place :=
  [{ id := 1, name := "A", latitude := 0, longitude := 0 },
   { id := 2, name := "B", latitude := 0, longitude := 0 },
   { id := 3, name := "C", latitude := 0, longitude := 0 },
   { id := 4, name := "D", latitude := 0, longitude := 0 },
   { id := 5, name := "E", latitude := 0, longitude := 0 },
   { id := 6, name := "F", latitude := 0, longitude := 0 }]

/-- A lookup whose (well-formed but overfull) response carries six
places: one keystroke, the timer firing, the issued request settling. -/
def overfullLookupEvents : List SEvent :=
  [.queryChange "Lon", .timerFire, .settle 0 (.success (some sixPlaces))]

/-- C5 counterexample: the client stores a successful response's place
list without truncating it, so a response with six places leaves six
suggestions — the suggestion list is not always capped at 5. -/
theorem suggestion_cap_counterexample :
    ¬ ((runFrom initState overfullLookupEvents).suggestions.length ≤ 5)
    ∧ (runFrom initState overfullLookupEvents).suggestions.length = 6 := by
  decide

/-- Every issued lookup request carries the result cap `count=5`. -/
theorem issued_count_five :
    ∀ (es : List SEvent) (st : AppState),
      (∀ r ∈ st.issued, r.count = 5) →
      ∀ r ∈ (runFrom st es).issued, r.count = 5 := by
  intro es
  induction es with
  | nil => intro st h; exact h
  | cons e es ih =>
    intro st h
    refine ih (step st e) ?_
    intro r hr
    cases e with
    | queryChange q =>
      exact h r (by rwa [step_queryChange_issued] at hr)
    | timerFire =>
      rcases hst : st.timer with _ | q
      · exact h r (by simpa [step, hst] using hr)
      · rcases (by simpa [step, hst] using hr : r ∈ st.issued ∨ r = mkLookupRequest q) with
          hmem | hr5
        · exact h r hmem
        · rw [hr5]; rfl
    | settle rid outcome =>
      cases outcome <;> exact h r (by simpa [step] using hr)

/-- C5 (amended): a successful lookup replaces the suggestion list
wholesale with the response's place list (empty when `results` is
absent); every request the controller issues carries `count=5`; and the
stored list has at most 5 entries whenever the response itself respects
the requested cap — the client performs no truncation of its own. -/
theorem suggestions_wholesale_with_cap :
    (∀ (st : AppState) (rid : Nat) (results : Option (List Place)),
        (step st (.settle rid (.success results))).suggestions
          = results.getD [])
    ∧ (∀ es : List SEvent, ∀ r ∈ (runFrom initState es).issued, r.count = 5)
    ∧ (∀ (st : AppState) (rid : Nat) (results : Option (List Place)),
        (results.getD []).length ≤ 5 →
        (step st (.settle rid (.success results))).suggestions.length ≤ 5) := by
  refine ⟨fun st rid results => rfl,
    fun es => issued_count_five es initState (by simp [initState]),
    fun st rid results h => ?_⟩
  simpa [step] using h

/-- Witness for C5 (amended) at a one-place response. -/
theorem suggestions_wholesale_with_cap_witness :
    ((some [placeLondon]).getD ([] : List Place)).length ≤ 5
    ∧ (step initState
        (.settle 0 (.success (some [placeLondon])))).suggestions.length ≤ 5 :=
  ⟨by decide,
    suggestions_wholesale_with_cap.2.2 initState 0 (some [placeLondon]) (by decide)⟩

theorem jsRound_nonneg {x : Rat} (hx : 0 ≤ x) : 0 ≤ jsRound x := by
  rw [jsRound]
  rw [show (0 : Int) = ((0 : Int) : Int) from rfl, Int.le_floor]
  push_cast
  linarith

/-- Every index below 16 hits the compass table, and the hit label is one
of its 16 entries. -/
theorem dirs_get_mem (n : Nat) (hn : n < 16) :
    ∃ s, dirs.get? n = some s ∧ s ∈ dirs := by
  interval_cases n <;> exact ⟨_, rfl, by decide⟩

/-- For a nonnegative degree the rounded sector index is a natural number
below 16 and `degToCompass` is the table lookup at it. -/
theorem degToCompass_eq_get (deg : Rat) (hd : 0 ≤ deg) :
    ∃ n : Nat, n < 16 ∧ (jsRound (deg / (22.5 : Rat))).tmod 16 = n
      ∧ degToCompass deg = dirs.get? n := by
  have ha : 0 ≤ jsRound (deg / (22.5 : Rat)) :=
    jsRound_nonneg (div_nonneg hd (by norm_num))
  have hmod : (jsRound (deg / (22.5 : Rat))).tmod 16
      = jsRound (deg / (22.5 : Rat)) % 16 :=
    Int.tmod_eq_emod ha (by norm_num)
  have h0 : 0 ≤ (jsRound (deg / (22.5 : Rat))).tmod 16 := by
    rw [hmod]
    exact Int.emod_nonneg _ (by norm_num)
  have h16 : (jsRound (deg / (22.5 : Rat))).tmod 16 < 16 := by
    rw [hmod]
    exact Int.emod_lt_of_pos _ (by norm_num)
  refine ⟨((jsRound (deg / (22.5 : Rat))).tmod 16).toNat, ?_, ?_, ?_⟩
  · omega
  · omega
  · rw [degToCompass]
    simp only [if_pos h0]

/-- Adding a full turn advances the rounded value by exactly 16 sectors. -/
theorem jsRound_div_add360 (deg : Rat) :
    jsRound ((deg + 360) / (22.5 : Rat)) = jsRound (deg / (22.5 : Rat)) + 16 := by
  rw [jsRound, jsRound]
  have h360 : (360 : Rat) / (22.5 : Rat) = 16 := by norm_num
  rw [add_div, h360]
  have hre : deg / (22.5 : Rat) + 16 + 1 / 2
      = deg / (22.5 : Rat) + 1 / 2 + ((16 : Int) : Rat) := by
    push_cast
    ring
  rw [hre, Int.floor_add_int]

/-- C8: on [0,360) the compass function returns one of the 16 labels of
the sector table, it is computed as the table lookup at
`Math.round(deg / 22.5) % 16`, and a full-turn shift leaves it
unchanged. -/
theorem degToCompass_contract :
    ∀ deg : Rat, 0 ≤ deg → deg < 360 →
      (∃ s, degToCompass deg = some s ∧ s ∈ dirs)
      ∧ degToCompass (deg + 360) = degToCompass deg
      ∧ degToCompass deg
          = dirs.get? ((jsRound (deg / (22.5 : Rat))).tmod 16).toNat := by
  intro deg h0 _
  obtain ⟨n, hn, hi, hget⟩ := degToCompass_eq_get deg h0
  have ha : 0 ≤ jsRound (deg / (22.5 : Rat)) :=
    jsRound_nonneg (div_nonneg h0 (by norm_num))
  refine ⟨?_, ?_, ?_⟩
  · obtain ⟨s, hs, hmem⟩ := dirs_get_mem n hn
    exact ⟨s, hget ▸ hs, hmem⟩
  · have hper : (jsRound ((deg + 360) / (22.5 : Rat))).tmod 16
        = (jsRound (deg / (22.5 : Rat))).tmod 16 := by
      rw [jsRound_div_add360]
      rw [Int.tmod_eq_emod (by linarith) (by norm_num),
        Int.tmod_eq_emod ha (by norm_num)]
      rw [show jsRound (deg / (22.5 : Rat)) + 16
          = jsRound (deg / (22.5 : Rat)) + 16 * 1 by ring]
      rw [Int.add_mul_emod_self_left]
    rw [degToCompass, degToCompass]
    simp only [hper]
  · rw [hget, hi]
    simp

/-- Witness for C8 at 90 degrees. -/
theorem degToCompass_contract_witness :
    (0 : Rat) ≤ 90 ∧ (90 : Rat) < 360
    ∧ ((∃ s, degToCompass 90 = some s ∧ s ∈ dirs)
        ∧ degToCompass (90 + 360) = degToCompass 90
        ∧ degToCompass 90
            = dirs.get? ((jsRound ((90 : Rat) / (22.5 : Rat))).tmod 16).toNat) :=
  ⟨by decide, by decide, degToCompass_contract 90 (by decide) (by decide)⟩

/-- C10: for every nonnegative degree the index
`Math.round(deg / 22.5) % 16` lies in [0,16), so the table lookup is in
bounds and yields one of the 16 labels; for a negative degree the code
performs no normalization — at -30 the JS index is -1 and the lookup
misses the table. -/
theorem degToCompass_inbounds :
    (∀ deg : Rat, 0 ≤ deg →
      0 ≤ (jsRound (deg / (22.5 : Rat))).tmod 16
      ∧ (jsRound (deg / (22.5 : Rat))).tmod 16 < 16
      ∧ ∃ s, degToCompass deg = some s ∧ s ∈ dirs)
    ∧ degToCompass (-30) = none := by
  constructor
  · intro deg hd
    obtain ⟨n, hn, hi, hget⟩ := degToCompass_eq_get deg hd
    refine ⟨by omega, by omega, ?_⟩
    obtain ⟨s, hs, hmem⟩ := dirs_get_mem n hn
    exact ⟨s, hget ▸ hs, hmem⟩
  · have hval : (-30 : Rat) / (22.5 : Rat) + 1 / 2 = -5 / 6 := by norm_num
    have hfloor : jsRound ((-30 : Rat) / (22.5 : Rat)) = -1 := by
      rw [jsRound, hval]
      rw [Int.floor_eq_iff]
      constructor <;> push_cast <;> norm_num
    rw [degToCompass, hfloor]
    decide

/-- Witness for C10 at 45 degrees. -/
theorem degToCompass_inbounds_witness :
    (0 : Rat) ≤ 45 ∧ ∃ s, degToCompass 45 = some s ∧ s ∈ dirs :=
  ⟨by decide, (degToCompass_inbounds.1 45 (by decide)).2.2⟩

end WeatherNow
